import Mathlib

/-!
Verification of the transcript service core in `main.py`: the video-ID
extractor, the transcript formatter, the proxy-configured fetcher's error
paths, and the instruction file loader. External collaborators (the MCP
framework, the captions-retrieval client, the operating system) are
modelled as explicit parameters.
-/

namespace YtMcp

/-- Characters admitted by the character class `[0-9A-Za-z_-]` of the
video-ID pattern (`main.py` line 63). -/
def videoIdChar (c : Char) : Bool :=
  c.isAlphanum || c == '_' || c == '-'

/-- The sub-pattern `([0-9A-Za-z_-]{11}).*` applied at the start of `l`:
exactly eleven ID characters are consumed and captured (the trailing `.*`
matches anything, possibly nothing, so it never fails). -/
def captureId (l : List Char) : Option (List Char) :=
  if (l.take 11).length = 11 ∧ (l.take 11).all videoIdChar = true then
    some (l.take 11)
  else none

/-- The whole pattern `(?:v=|\/)([0-9A-Za-z_-]{11}).*` applied at the
current position: the alternation tries the `v=` marker first, then the
`/` separator, and eleven ID characters must follow the marker (when the
`v=` branch matches its literal but the eleven-character group fails, the
`/` branch cannot match either, since `'v' ≠ '/'`). -/
def tryAt : List Char → Option (List Char)
  | [] => none
  | c :: rest =>
    if c = 'v' ∧ rest.head? = some '=' then captureId rest.tail
    else if c = '/' then captureId rest
    else none

/-- `re.search` of the video-ID pattern (`main.py` line 64): the pattern is
attempted at each position from the left; the leftmost succeeding position
wins. -/
def searchVideoId : List Char → Option (List Char)
  | [] => none
  | c :: rest =>
    match tryAt (c :: rest) with
    | some r => some r
    | none => searchVideoId rest

/-- Group 1 of the match, as a string (`main.py` line 69). -/
def extractVideoId (url : String) : Option String :=
  (searchVideoId url.toList).map fun l => ⟨l⟩

/-- One caption entry as the formatter reads it: a start offset in seconds
and a text span.  Offsets are modelled as rationals (the source receives
floating-point seconds). -/
structure CaptionEntry where
  start : ℚ
  text : String
deriving DecidableEq

/-- Python floor division `x // 60` on floats: `⌊x / 60⌋` as a number. -/
def pyFloordiv (x y : ℚ) : ℚ := ⌊x / y⌋

/-- Python modulo `x % y` on floats (result has the divisor's sign for a
positive divisor): `x - y * ⌊x / y⌋`. -/
def pyMod (x y : ℚ) : ℚ := x - y * ⌊x / y⌋

/-- Python `int(...)` on a float: truncation toward zero. -/
def pyInt (q : ℚ) : ℤ := if 0 ≤ q then ⌊q⌋ else ⌈q⌉

/-- Python `f"{n:02d}"`: decimal rendering zero-padded to a minimum width
of two characters (the sign counts toward the width). -/
def pad2 (n : ℤ) : String :=
  if n < 0 then toString n
  else if n < 10 then "0" ++ toString n
  else toString n

/-- The loop body of `format_transcript` (`main.py` lines 74-81):
`minutes = int(entry.start // 60)`, `seconds = int(entry.start % 60)`,
`timestamp = f"[{minutes:02d}:{seconds:02d}]"`, and the formatted entry
`f"{timestamp} {entry.text}"`. -/
def formatEntry (entry : CaptionEntry) : String :=
  let minutes : ℤ := pyInt (pyFloordiv entry.start 60)
  let seconds : ℤ := pyInt (pyMod entry.start 60)
  let timestamp := "[" ++ pad2 minutes ++ ":" ++ pad2 seconds ++ "]"
  timestamp ++ " " ++ entry.text

/-- `format_transcript` (`main.py` lines 71-84): one formatted string per
entry, collected in order and joined with `"\n".join(...)`. -/
def format_transcript (transcript : List CaptionEntry) : String :=
  String.intercalate "\n" (transcript.map formatEntry)

/-- The three proxy environment variables as `os.getenv` returns them
(`main.py` lines 88-90): `none` when unset. -/
structure ProxyEnv where
  proxy_username : Option String
  proxy_password : Option String
  proxy_url : Option String

/-- Python truthiness of an optional string: `None` and the empty string
are falsy (`if not proxy_username or ...`, `main.py` line 92). -/
def truthy : Option String → Bool
  | none => false
  | some s => !(s == "")

/-- Outcome of `ytt_api.fetch(video_id)` (`main.py` line 105): a caption
sequence, or a raised exception carrying its type name and `str(e)`. -/
inductive ClientResult where
  | ok (transcript : List CaptionEntry)
  | raised (etype : String) (msg : String)
deriving DecidableEq

/-- Exceptions inside the `try` block of `main.py` lines 86-106. -/
inductive TryErr where
  | valueError (msg : String)
  | clientError (etype : String) (msg : String)
deriving DecidableEq

/-- Python `str(e)` for the exceptions above: the message alone; the
exception's type is discarded. -/
def errStr : TryErr → String
  | .valueError m => m
  | .clientError _ m => m

/-- Errors `fetch_video_transcript` and `fetch_instructions` surface: the
`ValueError` raised outside the `try` block (`main.py` line 67), the
generic `Exception` re-raised by the handler (line 109), and the
`FileNotFoundError` from `open` (line 128). -/
inductive ToolError where
  | valueError (msg : String)
  | exception (msg : String)
  | fileNotFound (path : String)
deriving DecidableEq

/-- Message of the `ValueError` raised on `main.py` line 93. -/
def proxyMissingMsg : String :=
  "Proxy credentials not configured. Set PROXY_USERNAME, PROXY_PASSWORD, and PROXY_URL environment variables."

/-- Body of the `try` block (`main.py` lines 86-106): check the three proxy
values, then invoke the external client and format its transcript. -/
def tryBody (env : ProxyEnv) (client : String → ClientResult)
    (video_id : String) : Except TryErr String :=
  if !truthy env.proxy_username || !truthy env.proxy_password
      || !truthy env.proxy_url then
    .error (.valueError proxyMissingMsg)
  else
    match client video_id with
    | .ok transcript => .ok (format_transcript transcript)
    | .raised ty m => .error (.clientError ty m)

/-- `fetch_video_transcript` (`main.py` lines 50-109): extract the video
ID (raising `ValueError` outside any handler when there is no match), then
run the `try` block; any exception it raises is caught by `except
Exception` and re-raised wrapped (line 109). -/
def fetch_video_transcript (env : ProxyEnv) (client : String → ClientResult)
    (url : String) : Except ToolError String :=
  match extractVideoId url with
  | none => .error (.valueError "Invalid YouTube URL")
  | some video_id =>
    match tryBody env client video_id with
    | .ok s => .ok s
    | .error e =>
      .error (.exception ("Error fetching transcript with proxy: " ++ errStr e))

/-- POSIX `os.path.join` of two components: an absolute second component
discards the first; otherwise a single separator joins them (none is added
after an empty or slash-terminated first component). -/
def pathJoin (a b : String) : String :=
  if b.data.head? = some '/' then b
  else if a = "" ∨ a.data.getLast? = some '/' then a ++ b
  else a ++ "/" ++ b

/-- `fetch_instructions` (`main.py` lines 111-129) over an explicit
filesystem map; `script_dir` stands for `os.path.dirname(__file__)`, the
service's installation directory — the function receives no working
directory at all. -/
def fetch_instructions (fs : String → Option String) (script_dir : String)
    (prompt_name : String) : Except ToolError String :=
  let prompt_path := pathJoin (pathJoin script_dir "prompts") (prompt_name ++ ".md")
  match fs prompt_path with
  | some contents => .ok contents
  | none => .error (.fileNotFound prompt_path)

/-! ### Specification-side definitions

The definitions below transcribe the specification's prose, to be compared
with the source-derived functions above. -/

/-- A decimal number zero-padded to two digits, as the specification
prescribes for the minute and second fields. -/
def padNat2 (n : ℕ) : String :=
  if n < 10 then "0" ++ toString n else toString n

/-- The `[MM:SS] <text>` line the specification prescribes for one entry:
`MM` the whole minutes and `SS` the whole seconds of the start offset,
obtained by truncating integer division and modulo (for a non-negative
offset, truncation coincides with the floor), each zero-padded to two
digits, the minutes unbounded above 59. -/
def specLine (e : CaptionEntry) : String :=
  "[" ++ padNat2 (⌊e.start⌋.toNat / 60) ++ ":" ++ padNat2 (⌊e.start⌋.toNat % 60) ++ "]"
    ++ " " ++ e.text

/-- The specification's newline-join: one string per entry joined by single
newline characters, no trailing newline, empty output for empty input. -/
def specJoin : List String → String
  | [] => ""
  | [x] => x
  | x :: xs => x ++ "\n" ++ specJoin xs

/-- Split a character list at newline characters (the line decomposition
used to count output lines; a string without newlines is one line). -/
def splitNl : List Char → List (List Char)
  | [] => [[]]
  | c :: rest =>
    if c = '\n' then [] :: splitNl rest
    else
      match splitNl rest with
      | [] => [[c]]
      | g :: gs => (c :: g) :: gs

/-- The lines of a string: none for the empty string, otherwise the
newline-separated groups. -/
def linesOf (s : String) : List String :=
  if s = "" then [] else (splitNl s.data).map fun g => ⟨g⟩

/-- The specification's line pattern `^\[\d{2,}:\d{2}\] .*$`: an opening
bracket, at least two digits, a colon, exactly two digits, a closing
bracket, a space, then any characters other than a newline. -/
def lineOk (s : String) : Bool :=
  match s.data with
  | '[' :: rest =>
    let ds := rest.takeWhile Char.isDigit
    decide (2 ≤ ds.length) &&
      match rest.drop ds.length with
      | ':' :: d1 :: d2 :: ']' :: ' ' :: tail =>
        d1.isDigit && d2.isDigit && tail.all fun c => !(c == '\n')
      | _ => false
  | _ => false

/-- An eleven-character token of ID characters starts here. -/
def idToken11 (l : List Char) : Bool :=
  decide ((l.take 11).length = 11) && (l.take 11).all videoIdChar

/-- The specification's matching condition at position `i`: a `v=` marker
or a `/` separator immediately followed by an eleven-character token. -/
def markerTokenAt (l : List Char) (i : ℕ) : Bool :=
  (decide ((l.drop i).head? = some 'v') && decide ((l.drop (i+1)).head? = some '=')
      && idToken11 (l.drop (i+2)))
    || (decide ((l.drop i).head? = some '/') && idToken11 (l.drop (i+1)))

/-- The specification's "input contains an eleven-character token
immediately following a `v=` marker or a `/` separator". -/
def specHasToken (s : String) : Bool :=
  (List.range s.data.length).any fun i => markerTokenAt s.data i

/-- Split a character list at `/` separators. -/
def splitSlash : List Char → List (List Char)
  | [] => [[]]
  | c :: rest =>
    if c = '/' then [] :: splitSlash rest
    else
      match splitSlash rest with
      | [] => [[c]]
      | g :: gs => (c :: g) :: gs

/-- Resolve `.` and `..` components lexically against a component stack,
the way the operating system resolves a relative path without symlinks. -/
def resolveComponents : List (List Char) → List (List Char) → List (List Char)
  | stack, [] => stack.reverse
  | stack, comp :: rest =>
    if comp = [] ∨ comp = ['.'] then resolveComponents stack rest
    else if comp = ['.', '.'] then resolveComponents stack.tail rest
    else resolveComponents (comp :: stack) rest

/-- Lexical normalization of a relative path: split at separators, resolve
`.` and `..`, and rejoin — where the path the operating system would
actually open lies. -/
def normalizePath (s : String) : String :=
  String.intercalate "/"
    ((resolveComponents [] (splitSlash s.data)).map fun g => ⟨g⟩)

/-! ### Lemmas about the video-ID extractor -/

theorem videoIdChar_mem (idL : List Char) (h2 : idL.all videoIdChar = true) :
    ∀ x ∈ idL, (x.isAlphanum = true ∨ x = '_') ∨ x = '-' := by
  intro x hx
  have hx2 := List.all_eq_true.mp h2 x hx
  simp [videoIdChar] at hx2
  tauto

theorem captureId_append (idL tailL : List Char) (h1 : idL.length = 11)
    (h2 : idL.all videoIdChar = true) : captureId (idL ++ tailL) = some idL := by
  have ht : (idL ++ tailL).take 11 = idL := by rw [← h1]; exact List.take_left idL tailL
  simp [captureId, ht, h1, h2]

theorem searchVideoId_watch (idL tailL : List Char) (h1 : idL.length = 11)
    (h2 : idL.all videoIdChar = true) :
    searchVideoId ("https://www.youtube.com/watch?v=".data ++ (idL ++ tailL)) = some idL := by
  have ht : (idL ++ tailL).take 11 = idL := by rw [← h1]; exact List.take_left idL tailL
  simp [searchVideoId, tryAt, captureId, videoIdChar]
  rw [ht]
  rw [if_pos ⟨by omega, videoIdChar_mem idL h2⟩]

theorem searchVideoId_short (idL tailL : List Char) (h1 : idL.length = 11)
    (h2 : idL.all videoIdChar = true) :
    searchVideoId ("https://youtu.be/".data ++ (idL ++ tailL)) = some idL := by
  have ht : (idL ++ tailL).take 11 = idL := by rw [← h1]; exact List.take_left idL tailL
  simp [searchVideoId, tryAt, captureId, videoIdChar]
  rw [ht]
  rw [if_pos ⟨by omega, videoIdChar_mem idL h2⟩]

theorem searchVideoId_embed (idL tailL : List Char) (h1 : idL.length = 11)
    (h2 : idL.all videoIdChar = true) :
    searchVideoId ("https://www.youtube.com/embed/".data ++ (idL ++ tailL)) = some idL := by
  have ht : (idL ++ tailL).take 11 = idL := by rw [← h1]; exact List.take_left idL tailL
  simp [searchVideoId, tryAt, captureId, videoIdChar]
  rw [ht]
  rw [if_pos ⟨by omega, videoIdChar_mem idL h2⟩]

theorem extractVideoId_append (pre id tail : String)
    (h : searchVideoId (pre.data ++ (id.data ++ tail.data)) = some id.data) :
    extractVideoId (pre ++ id ++ tail) = some id := by
  have hd : (pre ++ id ++ tail).data = pre.data ++ (id.data ++ tail.data) := by
    simp [String.data_append]
  simp [extractVideoId, hd, h]

theorem tryAt_marker (c : Char) (rest : List Char) (r : List Char)
    (h : tryAt (c :: rest) = some r) : markerTokenAt (c :: rest) 0 = true := by
  simp only [tryAt] at h
  split_ifs at h with hv hs
  · obtain ⟨hc, he⟩ := hv
    subst hc
    have hid : idToken11 rest.tail = true := by
      unfold captureId at h
      split_ifs at h with hc2
      · simp [idToken11, hc2.1, hc2.2]
    simp [markerTokenAt, he, idToken11] at hid ⊢
    exact hid
  · subst hs
    have hid : idToken11 rest = true := by
      unfold captureId at h
      split_ifs at h with hc2
      · simp [idToken11, hc2.1, hc2.2]
    simp [markerTokenAt, idToken11] at hid ⊢
    tauto

theorem searchVideoId_token (l : List Char) (r : List Char)
    (h : searchVideoId l = some r) :
    ∃ i, i < l.length ∧ markerTokenAt l i = true := by
  induction l with
  | nil => simp [searchVideoId] at h
  | cons c rest ih =>
    rw [searchVideoId] at h
    rcases htry : tryAt (c :: rest) with _ | r'
    · rw [htry] at h
      obtain ⟨i, hi, hm⟩ := ih h
      refine ⟨i + 1, by simpa using hi, ?_⟩
      simpa [markerTokenAt, List.drop_succ_cons] using hm
    · exact ⟨0, by simp, tryAt_marker c rest r' htry⟩

theorem searchVideoId_none_of_no_token (s : String) (h : specHasToken s = false) :
    searchVideoId s.data = none := by
  rcases hr : searchVideoId s.data with _ | r
  · rfl
  · obtain ⟨i, hi, hm⟩ := searchVideoId_token _ _ hr
    have hfalse : markerTokenAt s.data i = false := by
      have := List.any_eq_false.mp h i (List.mem_range.mpr hi)
      simpa using this
    rw [hm] at hfalse
    exact absurd hfalse (by simp)

theorem searchVideoId_leftmost (l r : List Char) (h : searchVideoId l = some r) :
    ∃ i, tryAt (l.drop i) = some r ∧ ∀ j < i, tryAt (l.drop j) = none := by
  induction l with
  | nil => simp [searchVideoId] at h
  | cons c rest ih =>
    rw [searchVideoId] at h
    rcases htry : tryAt (c :: rest) with _ | r'
    · rw [htry] at h
      obtain ⟨i, hi, hnone⟩ := ih h
      refine ⟨i + 1, by simpa [List.drop_succ_cons] using hi, ?_⟩
      intro j hj
      match j with
      | 0 => simpa using htry
      | j' + 1 =>
        have hji : j' < i := by omega
        simpa [List.drop_succ_cons] using hnone j' hji
    · rw [htry] at h
      obtain rfl : r' = r := by simpa using h
      exact ⟨0, by simpa using htry, by omega⟩

/-! ### Lemmas about decimal rendering and padding -/

theorem digitChar_isDigit (m : ℕ) (h : m < 10) : (Nat.digitChar m).isDigit = true := by
  interval_cases m <;> decide

theorem toDigitsCore_digits :
    ∀ (fuel n : ℕ) (ds : List Char), (∀ c ∈ ds, c.isDigit = true) →
      ∀ c ∈ Nat.toDigitsCore 10 fuel n ds, c.isDigit = true := by
  intro fuel
  induction fuel with
  | zero => intro n ds hds; simpa [Nat.toDigitsCore] using hds
  | succ f ih =>
    intro n ds hds
    rw [Nat.toDigitsCore]
    have hd : (Nat.digitChar (n % 10)).isDigit = true :=
      digitChar_isDigit _ (Nat.mod_lt _ (by norm_num))
    have hds' : ∀ c ∈ Nat.digitChar (n % 10) :: ds, c.isDigit = true := by
      intro c hc
      rcases List.mem_cons.mp hc with rfl | hc2
      · exact hd
      · exact hds c hc2
    split
    · exact hds'
    · exact ih (n / 10) _ hds'

theorem toDigitsCore_length :
    ∀ (fuel n : ℕ) (ds : List Char), 0 < fuel →
      ds.length + 1 ≤ (Nat.toDigitsCore 10 fuel n ds).length := by
  intro fuel
  induction fuel with
  | zero => omega
  | succ f ih =>
    intro n ds _
    rw [Nat.toDigitsCore]
    split
    · simp
    · rcases Nat.eq_zero_or_pos f with rfl | hf
      · simp [Nat.toDigitsCore]
      · have := ih (n / 10) (Nat.digitChar (n % 10) :: ds) hf
        simp at this
        omega

theorem natRepr_digits (n : ℕ) : ∀ c ∈ (Nat.repr n).data, c.isDigit = true := by
  intro c hc
  exact toDigitsCore_digits (n + 1) n [] (by simp) c hc

theorem natRepr_length_pos (n : ℕ) : 1 ≤ (Nat.repr n).data.length := by
  have := toDigitsCore_length (n + 1) n [] (by omega)
  simpa [Nat.repr, Nat.toDigits] using this

theorem natRepr_length_two (n : ℕ) (h : 10 ≤ n) : 2 ≤ (Nat.repr n).data.length := by
  show 2 ≤ (Nat.toDigits 10 n).asString.data.length
  rw [Nat.toDigits, Nat.toDigitsCore]
  have hne : ¬ n / 10 = 0 := by omega
  rw [if_neg hne]
  have := toDigitsCore_length n (n / 10) [Nat.digitChar (n % 10)] (by omega)
  simpa using this

theorem padNat2_length (n : ℕ) : 2 ≤ (padNat2 n).data.length := by
  unfold padNat2
  split
  · have h1 := natRepr_length_pos n
    have hts : (toString n : String) = Nat.repr n := rfl
    rw [hts, String.data_append]
    simp
    exact h1
  · exact natRepr_length_two n (by omega)

theorem padNat2_digits (n : ℕ) : ∀ c ∈ (padNat2 n).data, c.isDigit = true := by
  unfold padNat2
  split
  · intro c hc
    rw [String.data_append] at hc
    rcases List.mem_append.mp hc with hc1 | hc2
    · simp at hc1
      subst hc1
      decide
    · exact natRepr_digits n c hc2
  · exact natRepr_digits n

/-! ### Lemmas about the formatter arithmetic -/

theorem int_toString_toNat (n : ℤ) (h : 0 ≤ n) : (toString n : String) = toString n.toNat := by
  match n, h with
  | Int.ofNat m, _ => rfl

theorem pad2_eq_padNat2 (n : ℤ) (h : 0 ≤ n) : pad2 n = padNat2 n.toNat := by
  unfold pad2 padNat2
  rw [if_neg (by omega), int_toString_toNat n h]
  by_cases h10 : n < 10
  · rw [if_pos h10, if_pos (by omega)]
  · rw [if_neg h10, if_neg (by omega)]

theorem minutes_eq (q : ℚ) (h : 0 ≤ q) :
    pyInt (pyFloordiv q 60) = ((⌊q⌋.toNat / 60 : ℕ) : ℤ) := by
  unfold pyFloordiv pyInt
  have h1 : (0:ℤ) ≤ ⌊q / 60⌋ := Int.floor_nonneg.mpr (by positivity)
  rw [if_pos (by exact_mod_cast h1), Int.floor_intCast]
  have h2 : ⌊q / 60⌋.toNat = ⌊q / 60⌋₊ := Int.floor_toNat (q / 60)
  have h3 : ⌊q / ((60:ℕ):ℚ)⌋₊ = ⌊q⌋₊ / 60 := Nat.floor_div_nat q 60
  have h4 : ⌊q⌋₊ = ⌊q⌋.toNat := (Int.floor_toNat q).symm
  have h5 : (((60:ℕ)):ℚ) = (60:ℚ) := by norm_num
  rw [h5] at h3
  omega

theorem minutes_nonneg (q : ℚ) (h : 0 ≤ q) : 0 ≤ pyInt (pyFloordiv q 60) := by
  rw [minutes_eq q h]; positivity

theorem minutes_toNat (q : ℚ) (h : 0 ≤ q) :
    (pyInt (pyFloordiv q 60)).toNat = ⌊q⌋.toNat / 60 := by
  rw [minutes_eq q h]; omega

theorem seconds_eq (q : ℚ) (h : 0 ≤ q) :
    pyInt (pyMod q 60) = ((⌊q⌋.toNat % 60 : ℕ) : ℤ) := by
  unfold pyMod pyInt
  have hnn : 0 ≤ q - 60 * ⌊q / 60⌋ := by
    have := Int.sub_floor_div_mul_nonneg q (show (0:ℚ) < 60 by norm_num)
    linarith [this]
  rw [if_pos hnn]
  have hcast : (60:ℚ) * (⌊q / 60⌋ : ℚ) = ((60 * ⌊q / 60⌋ : ℤ) : ℚ) := by push_cast; ring
  rw [hcast, Int.floor_sub_int]
  have hm := minutes_eq q h
  unfold pyFloordiv pyInt at hm
  have h1 : (0:ℤ) ≤ ⌊q / 60⌋ := Int.floor_nonneg.mpr (by positivity)
  rw [if_pos (by exact_mod_cast h1), Int.floor_intCast] at hm
  have h0 : (0:ℤ) ≤ ⌊q⌋ := Int.floor_nonneg.mpr h
  omega

theorem seconds_nonneg (q : ℚ) (h : 0 ≤ q) : 0 ≤ pyInt (pyMod q 60) := by
  rw [seconds_eq q h]; positivity

theorem seconds_toNat (q : ℚ) (h : 0 ≤ q) :
    (pyInt (pyMod q 60)).toNat = ⌊q⌋.toNat % 60 := by
  rw [seconds_eq q h]; omega

theorem formatEntry_eq_specLine (e : CaptionEntry) (h : 0 ≤ e.start) :
    formatEntry e = specLine e := by
  show ("[" ++ pad2 (pyInt (pyFloordiv e.start 60)) ++ ":" ++ pad2 (pyInt (pyMod e.start 60)) ++ "]")
      ++ " " ++ e.text = specLine e
  unfold specLine
  rw [pad2_eq_padNat2 _ (minutes_nonneg e.start h), pad2_eq_padNat2 _ (seconds_nonneg e.start h),
    minutes_toNat e.start h, seconds_toNat e.start h]

/-! ### Lemmas about joining and splitting lines -/

theorem intercalate_go_append (s : String) (as : List String) :
    ∀ acc₁ acc₂ : String,
      String.intercalate.go (acc₁ ++ acc₂) s as = acc₁ ++ String.intercalate.go acc₂ s as := by
  induction as with
  | nil => intro a b; simp [String.intercalate.go]
  | cons x xs ih =>
    intro a b
    rw [String.intercalate.go, String.intercalate.go]
    have hassoc : a ++ b ++ s ++ x = a ++ (b ++ s ++ x) := by
      simp [String.append_assoc]
    rw [hassoc, ih]

theorem intercalate_eq_specJoin : ∀ l : List String, String.intercalate "\n" l = specJoin l
  | [] => rfl
  | [x] => rfl
  | x :: y :: r => by
    have h1 : String.intercalate "\n" (x :: y :: r) = String.intercalate.go x "\n" (y :: r) := rfl
    have h2 : String.intercalate "\n" (y :: r) = String.intercalate.go y "\n" r := rfl
    rw [h1, String.intercalate.go]
    have h3 : x ++ "\n" ++ y = (x ++ "\n") ++ y := rfl
    rw [h3, intercalate_go_append "\n" r (x ++ "\n") y, ← h2,
      intercalate_eq_specJoin (y :: r)]
    simp [specJoin, String.append_assoc]

theorem splitNl_no_newline (l : List Char) (h : '\n' ∉ l) : splitNl l = [l] := by
  induction l with
  | nil => rfl
  | cons c rest ih =>
    have hc : ¬ c = '\n' := fun hc => h (hc ▸ List.mem_cons_self c rest)
    have hrest : '\n' ∉ rest := fun hr => h (List.mem_cons_of_mem c hr)
    rw [splitNl, if_neg hc, ih hrest]

theorem splitNl_append (a b : List Char) (h : '\n' ∉ a) :
    splitNl (a ++ '\n' :: b) = a :: splitNl b := by
  induction a with
  | nil => simp [splitNl]
  | cons c rest ih =>
    have hc : ¬ c = '\n' := fun hc => h (hc ▸ List.mem_cons_self c rest)
    have hrest : '\n' ∉ rest := fun hr => h (List.mem_cons_of_mem c hr)
    rw [List.cons_append, splitNl, if_neg hc, ih hrest]

theorem specJoin_split (parts : List String) (hne : parts ≠ [])
    (h : ∀ p ∈ parts, '\n' ∉ p.data) :
    splitNl (specJoin parts).data = parts.map String.data := by
  match parts with
  | [p] =>
    have := splitNl_no_newline p.data (h p (by simp))
    simpa [specJoin] using this
  | p :: q :: r =>
    have hdata : (specJoin (p :: q :: r)).data = p.data ++ '\n' :: (specJoin (q :: r)).data := by
      show (p ++ "\n" ++ specJoin (q :: r)).data = _
      simp [String.data_append]
    rw [hdata, splitNl_append _ _ (h p (by simp))]
    have ih := specJoin_split (q :: r) (by simp) (fun x hx => h x (List.mem_cons_of_mem p hx))
    rw [ih]
    rfl

theorem takeWhile_all_append (p : Char → Bool) (a : List Char) (c : Char) (b : List Char)
    (ha : ∀ x ∈ a, p x = true) (hc : p c = false) :
    (a ++ c :: b).takeWhile p = a := by
  induction a with
  | nil => simp [List.takeWhile_cons, hc]
  | cons x xs ih =>
    rw [List.cons_append, List.takeWhile_cons, ha x (by simp)]
    simp only [if_true]
    rw [ih fun y hy => ha y (List.mem_cons_of_mem x hy)]

theorem padNat2_sec_len (n : ℕ) (h : n < 60) : (padNat2 n).data.length = 2 := by
  interval_cases n <;> rfl

theorem lineOk_specLine (e : CaptionEntry) (htext : '\n' ∉ e.text.data) :
    lineOk (specLine e) = true := by
  obtain ⟨d1, d2, hd⟩ := List.length_eq_two.mp
    (padNat2_sec_len (⌊e.start⌋.toNat % 60) (Nat.mod_lt _ (by norm_num)))
  have hdata : (specLine e).data
      = '[' :: ((padNat2 (⌊e.start⌋.toNat / 60)).data
        ++ ':' :: (d1 :: d2 :: ']' :: ' ' :: e.text.data)) := by
    unfold specLine
    simp [String.data_append, hd]
  have hM := padNat2_digits (⌊e.start⌋.toNat / 60)
  have hMlen := padNat2_length (⌊e.start⌋.toNat / 60)
  have htw : ((padNat2 (⌊e.start⌋.toNat / 60)).data
      ++ ':' :: (d1 :: d2 :: ']' :: ' ' :: e.text.data)).takeWhile Char.isDigit
      = (padNat2 (⌊e.start⌋.toNat / 60)).data :=
    takeWhile_all_append _ _ ':' _ hM (by decide)
  have hdrop : ((padNat2 (⌊e.start⌋.toNat / 60)).data
      ++ ':' :: (d1 :: d2 :: ']' :: ' ' :: e.text.data)).drop
        (padNat2 (⌊e.start⌋.toNat / 60)).data.length
      = ':' :: (d1 :: d2 :: ']' :: ' ' :: e.text.data) :=
    List.drop_left _ _
  have hd1 : d1.isDigit = true := padNat2_digits _ d1 (by rw [hd]; simp)
  have hd2 : d2.isDigit = true := padNat2_digits _ d2 (by rw [hd]; simp)
  have htail : e.text.data.all (fun c => !(c == '\n')) = true := by
    rw [List.all_eq_true]
    intro c hc
    simp only [Bool.not_eq_true']
    exact beq_eq_false_iff_ne.mpr (fun hcn => htext (hcn ▸ hc))
  unfold lineOk
  rw [hdata]
  simp [htw, hdrop, hd1, hd2, htail]
  exact hMlen

/-! ### The formatter conformance claims -/

theorem specLine_data_ne_nil (e : CaptionEntry) : (specLine e).data ≠ [] := by
  unfold specLine
  simp [String.data_append]

theorem newline_not_mem_specLine (e : CaptionEntry) (htext : '\n' ∉ e.text.data) :
    '\n' ∉ (specLine e).data := by
  have hdata : (specLine e).data
      = '[' :: ((padNat2 (⌊e.start⌋.toNat / 60)).data
        ++ ':' :: ((padNat2 (⌊e.start⌋.toNat % 60)).data ++ ']' :: ' ' :: e.text.data)) := by
    unfold specLine
    simp [String.data_append]
  rw [hdata]
  intro hmem
  rcases List.mem_cons.mp hmem with hc | hmem2
  · exact absurd hc (by decide)
  rcases List.mem_append.mp hmem2 with hM | hmem3
  · have := padNat2_digits _ _ hM
    exact absurd this (by decide)
  rcases List.mem_cons.mp hmem3 with hc | hmem4
  · exact absurd hc (by decide)
  rcases List.mem_append.mp hmem4 with hS | hmem5
  · have := padNat2_digits _ _ hS
    exact absurd this (by decide)
  rcases List.mem_cons.mp hmem5 with hc | hmem6
  · exact absurd hc (by decide)
  rcases List.mem_cons.mp hmem6 with hc | hmem7
  · exact absurd hc (by decide)
  · exact htext hmem7

/-- C2: for every finite sequence of caption entries with non-negative
start offsets, `format_transcript` returns the newline-join — one string
per entry, no trailing newline — of the specification's `[MM:SS] <text>`
lines, whose minutes and seconds truncate the start offset with two-digit
zero padding and unbounded minutes; the empty sequence yields `""`. -/
theorem formatter_conforms_to_spec (entries : List CaptionEntry)
    (h : ∀ e ∈ entries, 0 ≤ e.start) :
    format_transcript entries = specJoin (entries.map specLine)
      ∧ format_transcript [] = "" := by
  constructor
  · unfold format_transcript
    rw [intercalate_eq_specJoin]
    congr 1
    exact List.map_congr_left fun e he => formatEntry_eq_specLine e (h e he)
  · rfl

/-- Witness for C2 at the specification's end-to-end example. -/
theorem formatter_conforms_to_spec_witness :
    (∀ e ∈ ([⟨0, "Hello"⟩, ⟨65, "world"⟩] : List CaptionEntry), 0 ≤ e.start)
      ∧ format_transcript [⟨0, "Hello"⟩, ⟨65, "world"⟩]
          = specJoin ([⟨0, "Hello"⟩, ⟨65, "world"⟩].map specLine) := by
  have h : ∀ e ∈ ([⟨0, "Hello"⟩, ⟨65, "world"⟩] : List CaptionEntry), 0 ≤ e.start := by
    intro e he
    rcases List.mem_cons.mp he with rfl | he2
    · norm_num
    rcases List.mem_cons.mp he2 with rfl | he3
    · norm_num
    · simp at he3
  exact ⟨h, (formatter_conforms_to_spec _ h).1⟩

/-- C7 (amended): for entries with non-negative, non-decreasing start
offsets whose texts contain no newline character, the output has exactly
one line per entry (none for the empty sequence) and every line matches
`^\[\d{2,}:\d{2}\] .*$`. -/
theorem formatter_line_structure (entries : List CaptionEntry)
    (hnn : ∀ e ∈ entries, 0 ≤ e.start)
    (hmono : entries.Chain' fun a b => a.start ≤ b.start)
    (htext : ∀ e ∈ entries, '\n' ∉ e.text.data) :
    (linesOf (format_transcript entries)).length = entries.length
      ∧ ∀ line ∈ linesOf (format_transcript entries), lineOk line = true := by
  match entries with
  | [] =>
    have h0 : format_transcript ([] : List CaptionEntry) = "" := rfl
    rw [h0]
    constructor
    · simp [linesOf]
    · intro line hline
      simp [linesOf] at hline
  | e :: rest =>
    have hform : format_transcript (e :: rest) = specJoin ((e :: rest).map specLine) := by
      unfold format_transcript
      rw [intercalate_eq_specJoin]
      congr 1
      exact List.map_congr_left fun x hx => formatEntry_eq_specLine x (hnn x hx)
    have hnolines : ∀ p ∈ (e :: rest).map specLine, '\n' ∉ p.data := by
      intro p hp
      obtain ⟨x, hx, rfl⟩ := List.mem_map.mp hp
      exact newline_not_mem_specLine x (htext x hx)
    have hsplit := specJoin_split ((e :: rest).map specLine) (by simp) hnolines
    have hne : specJoin ((e :: rest).map specLine) ≠ "" := by
      intro h0
      have hdata : (specJoin ((e :: rest).map specLine)).data = [] := by rw [h0]
      rw [hdata] at hsplit
      simp [splitNl] at hsplit
      exact specLine_data_ne_nil e hsplit.1
    rw [hform]
    unfold linesOf
    rw [if_neg hne, hsplit]
    have hback : (((e :: rest).map specLine).map String.data).map (fun g => (⟨g⟩ : String))
        = (e :: rest).map specLine := by
      rw [List.map_map]
      have hid : ((fun g => (⟨g⟩ : String)) ∘ String.data) = id := funext fun p => rfl
      rw [hid, List.map_id]
    rw [hback]
    constructor
    · simp
    · intro line hline
      obtain ⟨x, hx, rfl⟩ := List.mem_map.mp hline
      exact lineOk_specLine x (htext x hx)


/-- Witness for C7 at a two-entry transcript. -/
theorem formatter_line_structure_witness :
    List.Chain' (fun a b => a.start ≤ b.start)
        ([⟨0, "Hello"⟩, ⟨65, "world"⟩] : List CaptionEntry)
      ∧ (linesOf (format_transcript [⟨0, "Hello"⟩, ⟨65, "world"⟩])).length = 2
      ∧ ∀ line ∈ linesOf (format_transcript [⟨0, "Hello"⟩, ⟨65, "world"⟩]),
          lineOk line = true := by
  have hnn : ∀ e ∈ ([⟨0, "Hello"⟩, ⟨65, "world"⟩] : List CaptionEntry), 0 ≤ e.start := by
    intro e he
    rcases List.mem_cons.mp he with rfl | he2
    · norm_num
    rcases List.mem_cons.mp he2 with rfl | he3
    · norm_num
    · simp at he3
  have hmono : List.Chain' (fun a b => a.start ≤ b.start)
      ([⟨0, "Hello"⟩, ⟨65, "world"⟩] : List CaptionEntry) := by
    simp [List.chain'_cons, List.chain'_singleton]
  have htext : ∀ e ∈ ([⟨0, "Hello"⟩, ⟨65, "world"⟩] : List CaptionEntry),
      '\n' ∉ e.text.data := by
    intro e he
    rcases List.mem_cons.mp he with rfl | he2
    · decide
    rcases List.mem_cons.mp he2 with rfl | he3
    · decide
    · simp at he3
  obtain ⟨hlen, hok⟩ := formatter_line_structure _ hnn hmono htext
  exact ⟨hmono, hlen, hok⟩

/-- Counterexample for C7 as frozen: a single entry whose text contains a
newline yields two lines, not one, and the second line fails the pattern. -/
theorem formatter_line_structure_cex :
    ¬ ((linesOf (format_transcript [⟨5, "a\nb"⟩])).length = 1
        ∧ ∀ line ∈ linesOf (format_transcript [⟨5, "a\nb"⟩]), lineOk line = true) := by
  have h1 : format_transcript [(⟨5, "a\nb"⟩ : CaptionEntry)] = formatEntry ⟨5, "a\nb"⟩ := by
    unfold format_transcript
    rw [intercalate_eq_specJoin]
    simp [specJoin]
  have h2 : formatEntry (⟨5, "a\nb"⟩ : CaptionEntry) = specLine ⟨5, "a\nb"⟩ :=
    formatEntry_eq_specLine _ (by norm_num)
  have hfloor : (⌊(5:ℚ)⌋ : ℤ) = 5 := by norm_num
  have h3 : specLine (⟨5, "a\nb"⟩ : CaptionEntry) = "[00:05] a\nb" := by
    unfold specLine
    rw [show ((⟨5, "a\nb"⟩ : CaptionEntry)).start = (5:ℚ) from rfl, hfloor]
    decide
  rw [h1, h2, h3]
  decide

/-! ### The fetcher and extractor claims -/

/-- C3: every valid eleven-character video ID embedded in the three common
URL shapes, with arbitrary trailing characters (in particular trailing
query parameters) or none, is extracted exactly. -/
theorem extractor_common_shapes (id tail : String) (h1 : id.length = 11)
    (h2 : id.data.all videoIdChar = true) :
    extractVideoId ("https://www.youtube.com/watch?v=" ++ id ++ tail) = some id
      ∧ extractVideoId ("https://youtu.be/" ++ id ++ tail) = some id
      ∧ extractVideoId ("https://www.youtube.com/embed/" ++ id ++ tail) = some id := by
  have h1' : id.data.length = 11 := h1
  exact ⟨extractVideoId_append _ _ _ (searchVideoId_watch _ _ h1' h2),
    extractVideoId_append _ _ _ (searchVideoId_short _ _ h1' h2),
    extractVideoId_append _ _ _ (searchVideoId_embed _ _ h1' h2)⟩

/-- Witness for C3 at a concrete ID with and without trailing parameters. -/
theorem extractor_common_shapes_witness :
    ("dQw4w9WgXcQ" : String).length = 11
      ∧ extractVideoId ("https://www.youtube.com/watch?v=" ++ "dQw4w9WgXcQ" ++ "&t=10s")
          = some "dQw4w9WgXcQ"
      ∧ extractVideoId ("https://youtu.be/" ++ "dQw4w9WgXcQ" ++ "") = some "dQw4w9WgXcQ"
      ∧ extractVideoId ("https://www.youtube.com/embed/" ++ "dQw4w9WgXcQ" ++ "?rel=0")
          = some "dQw4w9WgXcQ" := by
  obtain ⟨a, -, -⟩ := extractor_common_shapes "dQw4w9WgXcQ" "&t=10s" (by decide) (by decide)
  obtain ⟨-, b, -⟩ := extractor_common_shapes "dQw4w9WgXcQ" "" (by decide) (by decide)
  obtain ⟨-, -, c⟩ := extractor_common_shapes "dQw4w9WgXcQ" "?rel=0" (by decide) (by decide)
  exact ⟨by decide, a, b, c⟩

/-- C4: an input without an eleven-character ID token immediately after a
`v=` marker or `/` separator makes the call fail with the uncaught
`ValueError("Invalid YouTube URL")` — the InvalidInput condition. -/
theorem no_token_invalid_input (url : String) (h : specHasToken url = false)
    (env : ProxyEnv) (client : String → ClientResult) :
    fetch_video_transcript env client url
      = .error (.valueError "Invalid YouTube URL") := by
  have hnone := searchVideoId_none_of_no_token url h
  have hex : extractVideoId url = none := by
    unfold extractVideoId
    rw [show url.toList = url.data from rfl, hnone]
    rfl
  unfold fetch_video_transcript
  rw [hex]

/-- Witness for C4 at a markerless input. -/
theorem no_token_invalid_input_witness :
    specHasToken "hello world" = false
      ∧ fetch_video_transcript ⟨some "u", some "p", some "h"⟩ (fun _ => .ok [])
          "hello world" = .error (.valueError "Invalid YouTube URL") :=
  ⟨by decide, no_token_invalid_input _ (by decide) _ _⟩

/-- C10: the URL validity check runs before the proxy-configuration check:
whenever the pattern finds no match, the result is the InvalidInput
`ValueError` for every environment — configured or not — and every
client. -/
theorem invalid_url_before_config (url : String) (h : extractVideoId url = none)
    (env : ProxyEnv) (client : String → ClientResult) :
    fetch_video_transcript env client url
      = .error (.valueError "Invalid YouTube URL") := by
  unfold fetch_video_transcript
  rw [h]

/-- Witness for C10 with all three proxy values unset. -/
theorem invalid_url_before_config_witness :
    extractVideoId "nope" = none
      ∧ fetch_video_transcript ⟨none, none, none⟩ (fun _ => .ok []) "nope"
          = .error (.valueError "Invalid YouTube URL") :=
  ⟨by decide, invalid_url_before_config "nope" (by decide) _ _⟩

/-- C1 (amended): with a URL that matches and any proxy value absent or
empty, the call fails before the client is ever consulted, with the
configuration message — but wrapped by the same `except Exception` handler
into the same generic exception used for client failures, not a distinct
category. -/
theorem proxy_missing_fails_before_fetch (env : ProxyEnv)
    (client client' : String → ClientResult) (url vid : String)
    (hmatch : extractVideoId url = some vid)
    (hmiss : truthy env.proxy_username = false ∨ truthy env.proxy_password = false
      ∨ truthy env.proxy_url = false) :
    fetch_video_transcript env client url
        = .error (.exception ("Error fetching transcript with proxy: " ++ proxyMissingMsg))
      ∧ fetch_video_transcript env client url = fetch_video_transcript env client' url := by
  have hbody : ∀ c : String → ClientResult,
      tryBody env c vid = .error (.valueError proxyMissingMsg) := by
    intro c
    unfold tryBody
    rcases hmiss with hm | hm | hm <;> simp [hm]
  constructor
  · unfold fetch_video_transcript
    rw [hmatch]
    simp [hbody client, errStr]
  · unfold fetch_video_transcript
    rw [hmatch]
    simp [hbody client, hbody client']

/-- Witness for C1 (amended) with the username unset. -/
theorem proxy_missing_fails_before_fetch_witness :
    extractVideoId "https://youtu.be/dQw4w9WgXcQ" = some "dQw4w9WgXcQ"
      ∧ fetch_video_transcript ⟨none, some "p", some "h"⟩ (fun _ => .ok [])
          "https://youtu.be/dQw4w9WgXcQ"
        = .error (.exception ("Error fetching transcript with proxy: " ++ proxyMissingMsg)) :=
  ⟨by decide,
    (proxy_missing_fails_before_fetch ⟨none, some "p", some "h"⟩ (fun _ => .ok [])
      (fun _ => .raised "E" "x") "https://youtu.be/dQw4w9WgXcQ" "dQw4w9WgXcQ"
      (by decide) (Or.inl (by decide))).1⟩

/-- Counterexample for C1 as frozen: the missing-configuration failure is
indistinguishable from a client failure carrying the same message — both
are the one wrapped generic exception, so no distinct category exists. -/
theorem proxy_missing_no_distinct_category_cex :
    fetch_video_transcript ⟨none, none, none⟩ (fun _ => .ok [])
        "https://youtu.be/dQw4w9WgXcQ"
      = fetch_video_transcript ⟨some "u", some "p", some "h"⟩
          (fun _ => .raised "RequestException" proxyMissingMsg)
          "https://youtu.be/dQw4w9WgXcQ" := rfl

/-- C5: any failure raised by the external client surfaces as the one
generic wrapped exception whose message appends the original message; the
original exception type `ty` does not influence the result. -/
theorem client_failure_wrapped (env : ProxyEnv) (client : String → ClientResult)
    (url vid ty m : String)
    (hmatch : extractVideoId url = some vid)
    (hu : truthy env.proxy_username = true) (hp : truthy env.proxy_password = true)
    (hb : truthy env.proxy_url = true)
    (hclient : client vid = .raised ty m) :
    fetch_video_transcript env client url
      = .error (.exception ("Error fetching transcript with proxy: " ++ m)) := by
  unfold fetch_video_transcript
  rw [hmatch]
  unfold tryBody
  rw [hu, hp, hb]
  simp [hclient, errStr]

/-- Witness for C5: a no-captions failure from the client. -/
theorem client_failure_wrapped_witness :
    truthy (some "u") = true
      ∧ fetch_video_transcript ⟨some "u", some "p", some "h"⟩
          (fun _ => .raised "NoTranscriptFound" "No transcript available")
          "https://youtu.be/dQw4w9WgXcQ"
        = .error (.exception ("Error fetching transcript with proxy: "
            ++ "No transcript available")) :=
  ⟨by decide,
    client_failure_wrapped ⟨some "u", some "p", some "h"⟩
      (fun _ => .raised "NoTranscriptFound" "No transcript available")
      "https://youtu.be/dQw4w9WgXcQ" "dQw4w9WgXcQ" "NoTranscriptFound"
      "No transcript available" (by decide) rfl rfl rfl rfl⟩

/-! ### The instruction loader claims -/

/-- C6: the loader reads exactly the joined path `<dir>/prompts/<name>.md`
(built from the installation directory parameter, no working directory
involved), returns the file's contents unmodified when the map has the
path, and fails with the `FileNotFoundError` carrying that path when it
does not. -/
theorem instructions_loader_contract (fs : String → Option String) (dir name : String) :
    (∀ c, fs (pathJoin (pathJoin dir "prompts") (name ++ ".md")) = some c →
        fetch_instructions fs dir name = .ok c)
      ∧ (fs (pathJoin (pathJoin dir "prompts") (name ++ ".md")) = none →
        fetch_instructions fs dir name
          = .error (.fileNotFound (pathJoin (pathJoin dir "prompts") (name ++ ".md"))))
      ∧ (dir ≠ "" → dir.data.getLast? ≠ some '/' → (name ++ ".md").data.head? ≠ some '/' →
        pathJoin (pathJoin dir "prompts") (name ++ ".md")
          = dir ++ "/prompts/" ++ name ++ ".md") := by
  refine ⟨?_, ?_, ?_⟩
  · intro c h
    simp [fetch_instructions, h]
  · intro h
    simp [fetch_instructions, h]
  · intro hdir hlast hhead
    have h1 : pathJoin dir "prompts" = dir ++ "/prompts" := by
      unfold pathJoin
      rw [if_neg (by decide), if_neg (not_or.mpr ⟨hdir, hlast⟩)]
      apply String.ext
      simp [String.data_append]
    rw [h1]
    have hne : dir ++ "/prompts" ≠ "" := by
      intro h0
      have : (dir ++ "/prompts").data = [] := by rw [h0]
      rw [String.data_append] at this
      simp at this
    have hlast2 : (dir ++ "/prompts").data.getLast? = some 's' := by
      rw [String.data_append]
      rw [List.getLast?_append_of_ne_nil dir.data (by decide)]
      decide
    unfold pathJoin
    rw [if_neg hhead, if_neg (not_or.mpr ⟨hne, by rw [hlast2]; decide⟩)]
    apply String.ext
    simp [String.data_append]

/-- Witness for C6: one present prompt, one absent prompt. -/
theorem instructions_loader_contract_witness :
    ((fun p => if p = "/app/prompts/write_blog_post.md" then some "CONTENT" else none)
        (pathJoin (pathJoin "/app" "prompts") ("write_blog_post" ++ ".md")) = some "CONTENT")
      ∧ fetch_instructions
          (fun p => if p = "/app/prompts/write_blog_post.md" then some "CONTENT" else none)
          "/app" "write_blog_post" = .ok "CONTENT"
      ∧ fetch_instructions (fun _ => none) "/app" "unknown_name"
          = .error (.fileNotFound "/app/prompts/unknown_name.md")
      ∧ pathJoin (pathJoin "/app" "prompts") ("write_blog_post" ++ ".md")
          = "/app" ++ "/prompts/" ++ "write_blog_post" ++ ".md" := by
  refine ⟨by decide, ?_, ?_, ?_⟩
  · exact (instructions_loader_contract _ "/app" "write_blog_post").1 "CONTENT" (by decide)
  · have h := (instructions_loader_contract (fun _ => none) "/app" "unknown_name").2.1 rfl
    have hpath : pathJoin (pathJoin "/app" "prompts") ("unknown_name" ++ ".md")
        = "/app/prompts/unknown_name.md" := by decide
    rw [hpath] at h
    exact h
  · exact (instructions_loader_contract (fun _ => none) "/app" "write_blog_post").2.2
      (by decide) (by decide) (by decide)

/-- C9: every prompt name — traversal sequences included — is joined
unsanitized into `<dir>/prompts/<name>.md` and the read attempted on that
very path, with nothing rejected beforehand; a traversal name resolves
lexically outside the prompts directory. -/
theorem instructions_no_sanitization :
    (∀ (fs : String → Option String) (dir name c : String),
        fs (pathJoin (pathJoin dir "prompts") (name ++ ".md")) = some c →
          fetch_instructions fs dir name = .ok c)
      ∧ pathJoin (pathJoin "app" "prompts") ("../../etc/passwd" ++ ".md")
          = "app/prompts/../../etc/passwd.md"
      ∧ normalizePath "app/prompts/../../etc/passwd.md" = "etc/passwd.md"
      ∧ (normalizePath "app/prompts/../../etc/passwd.md").data.take 12
          ≠ ("app/prompts/" : String).data := by
  refine ⟨?_, by decide, by decide, by decide⟩
  intro fs dir name c h
  simp [fetch_instructions, h]

/-- Witness for C9: a traversal name reaches a file outside the prompts
directory. -/
theorem instructions_no_sanitization_witness :
    ((fun p => if p = "app/prompts/../../etc/passwd.md" then some "SECRET" else none)
        (pathJoin (pathJoin "app" "prompts") ("../../etc/passwd" ++ ".md")) = some "SECRET")
      ∧ fetch_instructions
          (fun p => if p = "app/prompts/../../etc/passwd.md" then some "SECRET" else none)
          "app" "../../etc/passwd" = .ok "SECRET" :=
  ⟨by decide,
    instructions_no_sanitization.1
      (fun p => if p = "app/prompts/../../etc/passwd.md" then some "SECRET" else none)
      "app" "../../etc/passwd" "SECRET" (by decide)⟩

/-- C8 (amended): the extractor returns the capture of the leftmost
position whose `v=` or `/` marker is immediately followed by eleven ID
characters; every earlier position fails the pattern. -/
theorem extractor_leftmost_match (url r : String)
    (h : extractVideoId url = some r) :
    ∃ i, tryAt (url.data.drop i) = some r.data
      ∧ ∀ j < i, tryAt (url.data.drop j) = none := by
  unfold extractVideoId at h
  rcases hs : searchVideoId url.toList with _ | l
  · rw [hs] at h; simp at h
  · rw [hs] at h
    simp at h
    rw [← h]
    exact searchVideoId_leftmost _ _ hs

/-- Witness for C8 (amended) at a URL with two candidate segments. -/
theorem extractor_leftmost_match_witness :
    extractVideoId "https://example.com/abcdefghijk/xyzXYZ12345" = some "abcdefghijk"
      ∧ ∃ i, tryAt (("https://example.com/abcdefghijk/xyzXYZ12345" : String).data.drop i)
            = some ("abcdefghijk" : String).data
          ∧ ∀ j < i,
            tryAt (("https://example.com/abcdefghijk/xyzXYZ12345" : String).data.drop j)
              = none :=
  ⟨by decide, extractor_leftmost_match _ _ (by decide)⟩

/-- Counterexample for C8 as frozen: here the last separator is followed
by the valid token `xyzXYZ12345`, yet the extractor returns the earlier
`abcdefghijk`. -/
theorem extractor_not_last_separator_cex :
    extractVideoId "https://example.com/abcdefghijk/xyzXYZ12345" = some "abcdefghijk"
      ∧ markerTokenAt ("https://example.com/abcdefghijk/xyzXYZ12345" : String).data 31 = true
      ∧ ("https://example.com/abcdefghijk/xyzXYZ12345" : String).data.drop 32
          = ("xyzXYZ12345" : String).data
      ∧ ((List.range ("https://example.com/abcdefghijk/xyzXYZ12345" : String).data.length).all
          fun j => decide (j ≤ 31)
            || !markerTokenAt ("https://example.com/abcdefghijk/xyzXYZ12345" : String).data j)
          = true
      ∧ ("abcdefghijk" : String) ≠ "xyzXYZ12345" := by
  refine ⟨by decide, by decide, by decide, by decide, by decide⟩

end YtMcp
